import Mathlib

/-
Shallow embedding of the emergency-alert application (TypeScript sources under
src/src/services and src/unnamed/part_001) for verification of the
natural-language specification.

Conventions of the embedding:
- Mutable object state (the private fields of the Alert base class and its
  children) is passed explicitly: a method that mutates `this` returns the
  updated record alongside its result.
- Asynchronous calls that can reject (the database insert and the edge-function
  invocation inside AuthorityAlert.sendAlert) are modelled by an explicit
  environment `Env` saying whether each external call succeeds; a TypeScript
  try-block that may throw is modelled as an `Except`-valued function, and the
  surrounding catch is the total wrapper around it.
- The browser localStorage behind FileHandler is modelled as the stored list of
  logs itself, passed in and out explicitly; JSON serialisation round-trips the
  data unchanged, so readLogs on the stored list is the identity.
-/

namespace EmergencyApp

/-! Data model from src/src/services/Alert.ts -/

/-- AlertType from Alert.ts: "medical" | "fire" | "police" | "general". -/
inductive AlertType where
  | medical
  | fire
  | police
  | general
deriving DecidableEq, Repr

/-- AlertStatus from Alert.ts: "pending" | "acknowledged" | "resolved". -/
inductive AlertStatus where
  | pending
  | acknowledged
  | resolved
deriving DecidableEq, Repr

/-- Geographic location; the numeric values of lat and lng are never computed
with by the code under verification, so integers suffice. -/
structure Location where
  lat : Int
  lng : Int
deriving DecidableEq, Repr

/-- The private fields of the abstract Alert base class (Alert.ts). -/
structure AlertRec where
  id : String
  userId : String
  type : AlertType
  message : String
  status : AlertStatus
  location : Option Location
  locationAddress : String
deriving DecidableEq, Repr

/-- The Alert constructor (Alert.ts lines 23-38): status starts as pending.
The id produced by crypto.randomUUID is supplied as a parameter. -/
def mkAlert (id userId : String) (type : AlertType) (message : String)
    (location : Option Location) (locationAddress : String) : AlertRec :=
  { id := id
    userId := userId
    type := type
    message := message
    status := AlertStatus.pending
    location := location
    locationAddress := locationAddress }

/-- The status setter of Alert.ts (lines 74-76):
set status(value) just assigns this._status = value, with no validation. -/
def statusSet (a : AlertRec) (value : AlertStatus) : AlertRec :=
  { a with status := value }

/-! Channel classes from src/unnamed/part_001 (AlertTypes.ts) -/

/-- Result value of every sendAlert: { success, message }. -/
structure ChannelOutcome where
  success : Bool
  message : String
deriving DecidableEq, Repr

/-- An entry of the results array built by NotificationService.notifyAll:
the spread { type: ..., ...result }. -/
structure ChannelResult where
  type : String
  success : Bool
  message : String
deriving DecidableEq, Repr

/-- Outcome of the external calls made inside AuthorityAlert.sendAlert:
whether the supabase insert succeeds and whether the edge-function
invocation resolves. -/
structure Env where
  dbInsertOk : Bool
  invokeOk : Bool
deriving DecidableEq, Repr

/-- SMSAlert child class: base fields plus phoneNumbers. -/
structure SMSAlert where
  base : AlertRec
  phoneNumbers : List String
deriving DecidableEq, Repr

/-- Try-block body of SMSAlert.sendAlert (part_001 lines 27-34): a log line,
a status assignment and a return; nothing in it can throw. -/
def SMSAlert.sendTry (self : SMSAlert) : Except String (ChannelOutcome × SMSAlert) :=
  Except.ok
    ({ success := true
       message := "SMS alerts sent to " ++ toString self.phoneNumbers.length ++ " contacts" },
     { self with base := statusSet self.base AlertStatus.acknowledged })

/-- SMSAlert.sendAlert (part_001 lines 26-39): try-block wrapped in a catch
that reports failure as a value. -/
def SMSAlert.sendAlert (self : SMSAlert) : ChannelOutcome × SMSAlert :=
  match self.sendTry with
  | Except.ok r => r
  | Except.error _ =>
      ({ success := false, message := "Failed to send SMS alerts" },
       { self with base := statusSet self.base AlertStatus.pending })

/-- EmailAlert child class: base fields plus emailAddresses. -/
structure EmailAlert where
  base : AlertRec
  emailAddresses : List String
deriving DecidableEq, Repr

/-- Try-block body of EmailAlert.sendAlert (part_001 lines 60-67). -/
def EmailAlert.sendTry (self : EmailAlert) : Except String (ChannelOutcome × EmailAlert) :=
  Except.ok
    ({ success := true
       message := "Email alerts sent to " ++ toString self.emailAddresses.length ++ " contacts" },
     { self with base := statusSet self.base AlertStatus.acknowledged })

/-- EmailAlert.sendAlert (part_001 lines 59-72). -/
def EmailAlert.sendAlert (self : EmailAlert) : ChannelOutcome × EmailAlert :=
  match self.sendTry with
  | Except.ok r => r
  | Except.error _ =>
      ({ success := false, message := "Failed to send email alerts" },
       { self with base := statusSet self.base AlertStatus.pending })

/-- The closed lookup of AuthorityAlert.determineAuthority (part_001
lines 90-98). -/
def determineAuthority : AlertType → String
  | AlertType.medical => "911 Medical"
  | AlertType.fire => "Fire Department"
  | AlertType.police => "Police Department"
  | AlertType.general => "Emergency Services"

/-- AuthorityAlert child class: base fields plus the authorityType computed by
the constructor from the alert type. -/
structure AuthorityAlert where
  base : AlertRec
  authorityType : String
deriving DecidableEq, Repr

/-- AuthorityAlert constructor (part_001 lines 79-88). -/
def mkAuthorityAlert (id userId : String) (type : AlertType) (message : String)
    (location : Option Location) (locationAddress : String) : AuthorityAlert :=
  { base := mkAlert id userId type message location locationAddress
    authorityType := determineAuthority type }

/-- Try-block body of AuthorityAlert.sendAlert (part_001 lines 102-122):
the supabase insert may fail (if alertError then throw alertError), the
awaited edge-function invocation may reject; on success the status is set to
acknowledged and a success outcome returned. -/
def AuthorityAlert.sendTry (env : Env) (self : AuthorityAlert) :
    Except String (ChannelOutcome × AuthorityAlert) :=
  if env.dbInsertOk = false then Except.error "alert insert failed"
  else if env.invokeOk = false then Except.error "edge function invocation rejected"
  else
    Except.ok
      ({ success := true, message := self.authorityType ++ " has been notified" },
       { self with base := statusSet self.base AlertStatus.acknowledged })

/-- AuthorityAlert.sendAlert (part_001 lines 101-127): the catch clause sets
status back to pending and returns a failure value. -/
def AuthorityAlert.sendAlert (env : Env) (self : AuthorityAlert) :
    ChannelOutcome × AuthorityAlert :=
  match self.sendTry env with
  | Except.ok r => r
  | Except.error _ =>
      ({ success := false, message := "Failed to notify authorities" },
       { self with base := statusSet self.base AlertStatus.pending })

/-- PushNotificationAlert child class: base fields plus deviceTokens. -/
structure PushNotificationAlert where
  base : AlertRec
  deviceTokens : List String
deriving DecidableEq, Repr

/-- Try-block body of PushNotificationAlert.sendAlert (part_001
lines 148-155). -/
def PushNotificationAlert.sendTry (self : PushNotificationAlert) :
    Except String (ChannelOutcome × PushNotificationAlert) :=
  Except.ok
    ({ success := true
       message := "Push notifications sent to " ++ toString self.deviceTokens.length ++ " devices" },
     { self with base := statusSet self.base AlertStatus.acknowledged })

/-- PushNotificationAlert.sendAlert (part_001 lines 147-160). -/
def PushNotificationAlert.sendAlert (self : PushNotificationAlert) :
    ChannelOutcome × PushNotificationAlert :=
  match self.sendTry with
  | Except.ok r => r
  | Except.error _ =>
      ({ success := false, message := "Failed to send push notifications" },
       { self with base := statusSet self.base AlertStatus.pending })

/-! NotificationService from src/src/services/NotificationService.ts -/

/-- Contact interface of NotificationService.ts: phone is required, email is
optional. -/
structure Contact where
  id : String
  name : String
  phone : String
  email : Option String
  relationship : String
deriving DecidableEq, Repr

/-- The spread { type, ...result } pushed onto the results array. -/
def tagResult (t : String) (o : ChannelOutcome) : ChannelResult :=
  { type := t, success := o.success, message := o.message }

/-- NotificationService.notifyAll (NotificationService.ts lines 20-84).
The child alert objects it constructs receive fresh random ids; the ids play
no role, so the empty string stands for them. The function reads but never
writes the alert passed in, which is returned unchanged as the final state.
The returned pair (allSuccess, results) mirrors the returned object
  { success: allSuccess, results }. -/
def notifyAll (env : Env) (alert : AlertRec) (contacts : List Contact) :
    (Bool × List ChannelResult) × AlertRec :=
  let phoneNumbers := (contacts.map (fun c => c.phone)).filter (fun p => p ≠ "")
  let emailAddresses := (contacts.filterMap (fun c => c.email)).filter (fun e => e ≠ "")
  let smsResults :=
    if phoneNumbers.length > 0 then
      let smsAlert : SMSAlert :=
        { base := mkAlert "" alert.userId alert.type alert.message alert.location
            alert.locationAddress
          phoneNumbers := phoneNumbers }
      [tagResult "SMS" smsAlert.sendAlert.1]
    else []
  let emailResults :=
    if emailAddresses.length > 0 then
      let emailAlert : EmailAlert :=
        { base := mkAlert "" alert.userId alert.type alert.message alert.location
            alert.locationAddress
          emailAddresses := emailAddresses }
      [tagResult "Email" emailAlert.sendAlert.1]
    else []
  let authorityAlert :=
    mkAuthorityAlert "" alert.userId alert.type alert.message alert.location
      alert.locationAddress
  let authorityResult := tagResult "Authority" (authorityAlert.sendAlert env).1
  let pushAlert : PushNotificationAlert :=
    { base := mkAlert "" alert.userId alert.type alert.message alert.location
        alert.locationAddress
      deviceTokens := ["device-token-1", "device-token-2"] }
  let pushResult := tagResult "Push" pushAlert.sendAlert.1
  let results := smsResults ++ emailResults ++ [authorityResult] ++ [pushResult]
  let allSuccess := results.all (fun r => r.success)
  ((allSuccess, results), alert)

/-! FileHandler from src/src/services/FileHandler.ts -/

/-- EmergencyLog interface of FileHandler.ts (the optional
notificationResults array carries the channel results). -/
structure EmergencyLog where
  id : String
  userId : String
  type : String
  message : String
  location : Option Location
  locationAddress : String
  status : String
  notificationResults : List ChannelResult
deriving DecidableEq, Repr

/-- FileHandler.MAX_LOGS (line 20). -/
def MAX_LOGS : Nat := 100

/-- FileHandler.readLogs on the modelled store: the stored list itself (the
JSON round-trip through localStorage preserves it). -/
def readLogs (stored : List EmergencyLog) : List EmergencyLog :=
  stored

/-- FileHandler.saveLog (lines 23-36): unshift to the front, then
slice(0, MAX_LOGS). -/
def saveLog (log : EmergencyLog) (stored : List EmergencyLog) : List EmergencyLog :=
  let logs := log :: readLogs stored
  logs.take MAX_LOGS

/-- FileHandler.readUserLogs (lines 57-60): filter by userId. -/
def readUserLogs (userId : String) (stored : List EmergencyLog) : List EmergencyLog :=
  (readLogs stored).filter (fun log => log.userId = userId)

/-- FileHandler.deleteLog (lines 63-72): keep every log whose id differs. -/
def deleteLog (logId : String) (stored : List EmergencyLog) : List EmergencyLog :=
  (readLogs stored).filter (fun log => log.id ≠ logId)

/-- FileHandler.clearAllLogs (lines 75-82). -/
def clearAllLogs (_stored : List EmergencyLog) : List EmergencyLog :=
  []

/-- Incrementing one key of a Record of counts:
m[k] = (m[k] or 0) + 1, keeping insertion order of keys. -/
def recIncr : List (String × Nat) → String → List (String × Nat)
  | [], k => [(k, 1)]
  | (k0, v) :: rest, k =>
      if k0 = k then (k0, v + 1) :: rest else (k0, v) :: recIncr rest k

/-- The forEach loop of getStatistics, building byType and byStatus. -/
def statsFold (logs : List EmergencyLog) :
    List (String × Nat) × List (String × Nat) :=
  logs.foldl (fun acc log => (recIncr acc.1 log.type, recIncr acc.2 log.status)) ([], [])

/-- The record returned by FileHandler.getStatistics. -/
structure Statistics where
  total : Nat
  byType : List (String × Nat)
  byStatus : List (String × Nat)
deriving DecidableEq, Repr

/-- FileHandler.getStatistics (lines 99-119): counts over readUserLogs when a
userId is given, over readLogs otherwise. -/
def getStatistics (userId : Option String) (stored : List EmergencyLog) : Statistics :=
  let logs := match userId with
    | some u => readUserLogs u stored
    | none => readLogs stored
  { total := logs.length
    byType := (statsFold logs).1
    byStatus := (statsFold logs).2 }

/-- Sum of the counter values of a Record of counts. -/
def sumValues (m : List (String × Nat)) : Nat :=
  (m.map (fun p => p.2)).sum

/-- The mutating operations FileHandler offers on the stored collection. -/
inductive StoreOp where
  | save : EmergencyLog → StoreOp
  | del : String → StoreOp
  | clear : StoreOp
deriving Repr

/-- Apply one store operation to the current store contents. -/
def applyOp (stored : List EmergencyLog) : StoreOp → List EmergencyLog
  | StoreOp.save log => saveLog log stored
  | StoreOp.del logId => deleteLog logId stored
  | StoreOp.clear => clearAllLogs stored

/-- Run a sequence of store operations starting from the empty store. -/
def runOps (ops : List StoreOp) : List EmergencyLog :=
  ops.foldl applyOp []

/-! Helper definitions for concrete evaluations -/

/-- An environment in which every external call succeeds. -/
def envOk : Env := { dbInsertOk := true, invokeOk := true }

/-- A concrete freshly constructed alert (status pending). -/
def alertC1 : AlertRec := mkAlert "alert-1" "user-1" AlertType.general "help" none "addr"

/-! Helper lemmas -/

lemma phone_any (cs : List Contact) :
    0 < ((cs.map (fun c => c.phone)).filter (fun p => p ≠ "")).length ↔
      cs.any (fun c => c.phone ≠ "") = true := by
  rw [List.length_pos_iff_exists_mem]
  simp only [List.mem_filter, List.mem_map, List.any_eq_true, decide_eq_true_eq]
  constructor
  · rintro ⟨p, ⟨c, hc, hpc⟩, hne⟩
    exact ⟨c, hc, hpc ▸ hne⟩
  · rintro ⟨c, hc, hne⟩
    exact ⟨c.phone, ⟨c, hc, rfl⟩, hne⟩

lemma email_any (cs : List Contact) :
    0 < ((cs.filterMap (fun c => c.email)).filter (fun e => e ≠ "")).length ↔
      cs.any (fun c => c.email.getD "" ≠ "") = true := by
  rw [List.length_pos_iff_exists_mem]
  simp only [List.mem_filter, List.mem_filterMap, List.any_eq_true, decide_eq_true_eq]
  constructor
  · rintro ⟨e, ⟨c, hc, hce⟩, hne⟩
    refine ⟨c, hc, ?_⟩
    rw [hce, Option.getD_some]
    exact hne
  · rintro ⟨c, hc, hne⟩
    cases hce : c.email with
    | none => rw [hce] at hne; simp at hne
    | some e =>
        rw [hce, Option.getD_some] at hne
        exact ⟨e, ⟨c, hc, hce⟩, hne⟩

lemma notifyAll_types (env : Env) (a : AlertRec) (cs : List Contact) :
    ((notifyAll env a cs).1.2).map (fun r => r.type)
      = (if cs.any (fun c => c.phone ≠ "") = true then ["SMS"] else [])
        ++ (if cs.any (fun c => c.email.getD "" ≠ "") = true then ["Email"] else [])
        ++ ["Authority", "Push"] := by
  by_cases hp0 : 0 < ((cs.map (fun c => c.phone)).filter (fun p => p ≠ "")).length <;>
    by_cases he0 : 0 < ((cs.filterMap (fun c => c.email)).filter (fun e => e ≠ "")).length
  · simp only [notifyAll, if_pos hp0, if_pos he0,
      if_pos ((phone_any cs).mp hp0), if_pos ((email_any cs).mp he0)]
    simp [tagResult]
  · simp only [notifyAll, if_pos hp0, if_neg he0,
      if_pos ((phone_any cs).mp hp0), if_neg (fun h => he0 ((email_any cs).mpr h))]
    simp [tagResult]
  · simp only [notifyAll, if_neg hp0, if_pos he0,
      if_neg (fun h => hp0 ((phone_any cs).mpr h)), if_pos ((email_any cs).mp he0)]
    simp [tagResult]
  · simp only [notifyAll, if_neg hp0, if_neg he0,
      if_neg (fun h => hp0 ((phone_any cs).mpr h)),
      if_neg (fun h => he0 ((email_any cs).mpr h))]
    simp [tagResult]

/-! Claim theorems -/

/-- C1 counterexample: with every external call succeeding and an empty
contact list, every produced channel outcome has success true and the overall
success flag is true, yet the alert passed in still has status pending, not
acknowledged. This refutes the claim that notifyAll sets the alert status to
acknowledged when every channel outcome succeeds. -/
theorem notifyAll_success_leaves_pending :
    ((notifyAll envOk alertC1 []).1.2).all (fun r => r.success) = true
    ∧ (notifyAll envOk alertC1 []).1.1 = true
    ∧ (notifyAll envOk alertC1 []).2.status ≠ AlertStatus.acknowledged := by
  decide

/-- C1 amended: notifyAll never mutates the alert passed in: after it
completes the alert (in particular its status) is exactly what it was before,
so the status is still pending whenever it was pending, and notifyAll never
sets it to acknowledged or to resolved. -/
theorem notifyAll_preserves_alert (env : Env) (a : AlertRec) (cs : List Contact) :
    (notifyAll env a cs).2 = a ∧ (notifyAll env a cs).2.status = a.status :=
  ⟨rfl, rfl⟩

/-- C2, evaluation at the failing input: on an alert whose status is resolved,
the status setter of Alert.ts silently assigns the new value. Setting status
to pending or to acknowledged succeeds and changes the status, instead of
failing with an InvalidTransition condition and leaving the status unchanged
as the specification requires. -/
theorem statusSet_backward_assigns :
    (statusSet { alertC1 with status := AlertStatus.resolved } AlertStatus.pending).status
        = AlertStatus.pending
    ∧ (statusSet { alertC1 with status := AlertStatus.resolved } AlertStatus.acknowledged).status
        = AlertStatus.acknowledged
    ∧ ∀ (a : AlertRec) (v : AlertStatus), statusSet a v = { a with status := v } :=
  ⟨rfl, rfl, fun _ _ => rfl⟩

/-- C3: notifyAll produces an SMS outcome exactly when some contact has a
non-empty phone, an Email outcome exactly when some contact has a non-empty
email, and always an Authority and a Push outcome, in this order; with an
empty contact list the outcomes are exactly Authority and Push, and a skipped
channel contributes no entry at all. -/
theorem notifyAll_channel_selection (env : Env) (a : AlertRec) (cs : List Contact) :
    (((notifyAll env a cs).1.2).map (fun r => r.type)
      = (if cs.any (fun c => c.phone ≠ "") = true then ["SMS"] else [])
        ++ (if cs.any (fun c => c.email.getD "" ≠ "") = true then ["Email"] else [])
        ++ ["Authority", "Push"])
    ∧ ((notifyAll env a []).1.2).map (fun r => r.type) = ["Authority", "Push"] := by
  refine ⟨notifyAll_types env a cs, ?_⟩
  simpa using notifyAll_types env a []

/-- C4: the overall success flag returned by notifyAll is true exactly when
every produced channel outcome has success true, and the produced results list
is never empty (Authority and Push always contribute an entry). -/
theorem notifyAll_overall_success_iff (env : Env) (a : AlertRec) (cs : List Contact) :
    ((notifyAll env a cs).1.1 = true ↔ ∀ r ∈ (notifyAll env a cs).1.2, r.success = true)
    ∧ (notifyAll env a cs).1.2 ≠ [] := by
  constructor
  · have hdef : (notifyAll env a cs).1.1
        = ((notifyAll env a cs).1.2).all (fun r => r.success) := rfl
    rw [hdef]
    exact List.all_eq_true
  · intro h
    have htypes := notifyAll_types env a cs
    rw [h] at htypes
    simp [List.append_eq_nil] at htypes

/-- C5: no channel send ever propagates an exception: for SMS, Email and Push
the try-block body always succeeds and its value is returned, and for the
Authority channel either the try block succeeds and its value is returned, or
it fails and the failure is returned as a value with success false and the
failure message; consequently the set of channels attempted by notifyAll does
not depend on the external environment, so one channel failing never aborts
the sibling channels of a dispatch. -/
theorem sendAlert_never_throws :
    (∀ s : SMSAlert, ∃ r, s.sendTry = Except.ok r ∧ s.sendAlert = r)
    ∧ (∀ s : EmailAlert, ∃ r, s.sendTry = Except.ok r ∧ s.sendAlert = r)
    ∧ (∀ s : PushNotificationAlert, ∃ r, s.sendTry = Except.ok r ∧ s.sendAlert = r)
    ∧ (∀ (env : Env) (s : AuthorityAlert),
        (∃ r, s.sendTry env = Except.ok r ∧ s.sendAlert env = r)
        ∨ (∃ e, s.sendTry env = Except.error e ∧
            s.sendAlert env =
              ({ success := false, message := "Failed to notify authorities" },
               { s with base := statusSet s.base AlertStatus.pending })))
    ∧ (∀ (env env2 : Env) (a : AlertRec) (cs : List Contact),
        ((notifyAll env a cs).1.2).map (fun r => r.type)
          = ((notifyAll env2 a cs).1.2).map (fun r => r.type)) := by
  refine ⟨fun s => ⟨_, rfl, rfl⟩, fun s => ⟨_, rfl, rfl⟩, fun s => ⟨_, rfl, rfl⟩, ?_, ?_⟩
  · intro env s
    cases hdb : env.dbInsertOk with
    | false =>
        right
        exact ⟨"alert insert failed",
          by simp [AuthorityAlert.sendTry, hdb],
          by simp [AuthorityAlert.sendAlert, AuthorityAlert.sendTry, hdb]⟩
    | true =>
        cases hin : env.invokeOk with
        | false =>
            right
            exact ⟨"edge function invocation rejected",
              by simp [AuthorityAlert.sendTry, hdb, hin],
              by simp [AuthorityAlert.sendAlert, AuthorityAlert.sendTry, hdb, hin]⟩
        | true =>
            left
            refine ⟨({ success := true, message := s.authorityType ++ " has been notified" },
                { s with base := statusSet s.base AlertStatus.acknowledged }), ?_, ?_⟩
            · simp [AuthorityAlert.sendTry, hdb, hin]
            · simp [AuthorityAlert.sendAlert, AuthorityAlert.sendTry, hdb, hin]
  · intro env env2 a cs
    rw [notifyAll_types, notifyAll_types]

/-- C6 counterexample: the closed lookup in the code maps medical to
"911 Medical", not to "medical services" as the claim states (and general maps
to "Emergency Services", not to "general emergency services"). -/
theorem determineAuthority_ne_spec_labels :
    determineAuthority AlertType.medical ≠ "medical services"
    ∧ determineAuthority AlertType.fire ≠ "fire department"
    ∧ determineAuthority AlertType.police ≠ "police department"
    ∧ determineAuthority AlertType.general ≠ "general emergency services" := by
  decide

/-- C6 amended: the Authority channel selects its label from the fixed closed
lookup medical to "911 Medical", fire to "Fire Department", police to
"Police Department", general to "Emergency Services"; the selection is a pure
function of the category, so the same category always yields the same label,
with no randomness. -/
theorem determineAuthority_fixed_lookup :
    determineAuthority AlertType.medical = "911 Medical"
    ∧ determineAuthority AlertType.fire = "Fire Department"
    ∧ determineAuthority AlertType.police = "Police Department"
    ∧ determineAuthority AlertType.general = "Emergency Services" :=
  ⟨rfl, rfl, rfl, rfl⟩

/-! Helper lemmas and definitions for the FileHandler claims -/

lemma saveLog_eq (log : EmergencyLog) (s : List EmergencyLog) :
    saveLog log s = (log :: s).take MAX_LOGS := rfl

lemma take_append_take {α : Type} (l m : List α) (n : Nat) :
    (l ++ m.take n).take n = (l ++ m).take n := by
  rw [List.take_append_eq_append_take, List.take_append_eq_append_take, List.take_take,
    Nat.min_eq_left (Nat.sub_le n l.length)]

lemma foldl_saveLog (es : List EmergencyLog) :
    ∀ s : List EmergencyLog, s.length ≤ MAX_LOGS →
      es.foldl (fun acc e => saveLog e acc) s = (es.reverse ++ s).take MAX_LOGS := by
  induction es with
  | nil =>
      intro s hs
      simp [List.take_of_length_le hs]
  | cons e es ih =>
      intro s hs
      rw [List.foldl_cons, ih (saveLog e s) (by rw [saveLog_eq]; exact List.length_take_le _ _),
        saveLog_eq, take_append_take]
      simp [List.reverse_cons, List.append_assoc]

lemma take_cons_head {α : Type} (a : α) (l : List α) (n : Nat) (h : 0 < n) :
    ((a :: l).take n).head? = some a := by
  cases n with
  | zero => simp at h
  | succ m => simp [List.take_succ_cons]

lemma foldl_applyOp_le (ops : List StoreOp) :
    ∀ s : List EmergencyLog, s.length ≤ MAX_LOGS →
      (ops.foldl applyOp s).length ≤ MAX_LOGS := by
  induction ops with
  | nil => intro s hs; simpa using hs
  | cons op ops ih =>
      intro s hs
      rw [List.foldl_cons]
      apply ih
      cases op with
      | save log =>
          show (saveLog log s).length ≤ MAX_LOGS
          rw [saveLog_eq]
          exact List.length_take_le _ _
      | del i =>
          show ((readLogs s).filter (fun log => log.id ≠ i)).length ≤ MAX_LOGS
          exact le_trans (List.length_filter_le _ _) hs
      | clear => simp [applyOp, clearAllLogs]

lemma filter_ne_length (logId : String) :
    ∀ stored : List EmergencyLog, (stored.map (fun l => l.id)).Nodup →
      ∀ l ∈ stored, l.id = logId →
        (stored.filter (fun x => x.id ≠ logId)).length + 1 = stored.length := by
  intro stored
  induction stored with
  | nil => intro _ l hl; cases hl
  | cons a rest ih =>
      intro hnd l hl hid
      rw [List.map_cons, List.nodup_cons] at hnd
      obtain ⟨ha, hrest⟩ := hnd
      rcases List.mem_cons.mp hl with rfl | hlr
      · have hfil : (l :: rest).filter (fun x => x.id ≠ logId)
            = rest.filter (fun x => x.id ≠ logId) := by
          simp [List.filter_cons, hid]
        have hrest_eq : rest.filter (fun x => x.id ≠ logId) = rest := by
          rw [List.filter_eq_self]
          intro x hx
          simp only [decide_eq_true_eq]
          intro heq
          exact ha (by rw [hid, ← heq]; exact List.mem_map_of_mem _ hx)
        rw [hfil, hrest_eq]
        simp
      · have hane : a.id ≠ logId := by
          intro h
          apply ha
          rw [h, ← hid]
          exact List.mem_map_of_mem _ hlr
        have hfil : (a :: rest).filter (fun x => x.id ≠ logId)
            = a :: rest.filter (fun x => x.id ≠ logId) := by
          simp [List.filter_cons, hane]
        have hr := ih hrest l hlr hid
        rw [hfil]
        simp only [List.length_cons]
        omega

/-- Concrete log entries with pairwise distinct ids (the id of entry n is the
string of n letters a), used for closed instances of the store theorems. -/
def wLog (n : Nat) : EmergencyLog :=
  { id := String.mk (List.replicate n 'a')
    userId := "user-1"
    type := "general"
    message := ""
    location := none
    locationAddress := ""
    status := "pending"
    notificationResults := [] }

lemma wLog_id_inj : Function.Injective (fun n => (wLog n).id) := by
  intro m n h
  have h2 : List.replicate m 'a' = List.replicate n 'a' := by
    simpa [wLog] using congrArg String.data h
  have h3 := congrArg List.length h2
  simpa using h3

/-- C7: saveLog inserts at the front and truncates to the cap: the new length
is the old length plus one, capped at 100; the new entry is the head; the
result is a prefix of the un-truncated list, so most-recent-first order is
preserved; appending 101 entries with pairwise distinct ids to the empty
store leaves exactly 100 entries with the very first appended entry absent;
and no sequence of store operations ever makes the stored collection exceed
100 entries. -/
theorem saveLog_cap_properties :
    (∀ (log : EmergencyLog) (s : List EmergencyLog),
        (saveLog log s).length = min (s.length + 1) MAX_LOGS
        ∧ (saveLog log s).head? = some log
        ∧ ∃ t, saveLog log s ++ t = log :: s)
    ∧ (∀ (e0 : EmergencyLog) (rest : List EmergencyLog),
        (e0 :: rest).length = 101 →
        ((e0 :: rest).map (fun l => l.id)).Nodup →
          ((e0 :: rest).foldl (fun acc e => saveLog e acc) []).length = 100
          ∧ e0 ∉ (e0 :: rest).foldl (fun acc e => saveLog e acc) [])
    ∧ (∀ ops : List StoreOp, (runOps ops).length ≤ MAX_LOGS) := by
  refine ⟨?_, ?_, ?_⟩
  · intro log s
    refine ⟨?_, ?_, ?_⟩
    · rw [saveLog_eq, List.length_take]
      simp [Nat.min_comm]
    · rw [saveLog_eq]
      exact take_cons_head log s MAX_LOGS (by decide)
    · exact ⟨(log :: s).drop MAX_LOGS, by rw [saveLog_eq]; exact List.take_append_drop _ _⟩
  · intro e0 rest hlen hnodup
    have hrest : rest.length = 100 := by simpa using hlen
    have hfold : (e0 :: rest).foldl (fun acc e => saveLog e acc) []
        = ((e0 :: rest).reverse ++ []).take MAX_LOGS :=
      foldl_saveLog _ [] (by simp [MAX_LOGS])
    rw [List.append_nil] at hfold
    have htake : ((e0 :: rest).reverse).take MAX_LOGS = rest.reverse := by
      rw [List.reverse_cons,
        show MAX_LOGS = rest.reverse.length by simp [MAX_LOGS, hrest]]
      exact List.take_left _ _
    rw [List.map_cons, List.nodup_cons] at hnodup
    constructor
    · rw [hfold, htake]
      simp [hrest]
    · rw [hfold, htake, List.mem_reverse]
      intro hmem
      exact hnodup.1 (List.mem_map_of_mem _ hmem)
  · exact fun ops => foldl_applyOp_le ops [] (by simp)

/-- C7 witness: the concrete 101-entry scenario with pairwise distinct ids,
instantiating the cap theorem. -/
theorem saveLog_cap_properties_wit :
    ((wLog 0 :: (List.range 100).map (fun n => wLog (n + 1))).foldl
        (fun acc e => saveLog e acc) []).length = 100
    ∧ wLog 0 ∉ (wLog 0 :: (List.range 100).map (fun n => wLog (n + 1))).foldl
        (fun acc e => saveLog e acc) [] := by
  have hlen : (wLog 0 :: (List.range 100).map (fun n => wLog (n + 1))).length = 101 := by
    simp
  have hnodup : ((wLog 0 :: (List.range 100).map (fun n => wLog (n + 1))).map
      (fun l => l.id)).Nodup := by
    rw [List.map_cons, List.map_map]
    refine List.nodup_cons.mpr ⟨?_, ?_⟩
    · intro hmem
      simp only [List.mem_map, Function.comp] at hmem
      rcases hmem with ⟨n, _, hn⟩
      have := wLog_id_inj hn
      omega
    · have hinj : Function.Injective ((fun l : EmergencyLog => l.id) ∘ fun n => wLog (n + 1)) := by
        intro m n h
        have := wLog_id_inj h
        omega
      exact (List.nodup_range 100).map hinj
  exact saveLog_cap_properties.2.1 (wLog 0) ((List.range 100).map (fun n => wLog (n + 1)))
    hlen hnodup

/-- C8: deleting by an id that matches no stored entry returns the store
unchanged; the result of a deletion is always a sublist of the store, so all
remaining entries keep their relative order; an entry of the store survives
the deletion exactly when its id differs from the deleted id; and when the
stored ids are pairwise distinct and the id is present, exactly one entry is
removed. -/
theorem deleteLog_properties (stored : List EmergencyLog) (logId : String) :
    ((∀ l ∈ stored, l.id ≠ logId) → deleteLog logId stored = stored)
    ∧ (deleteLog logId stored).Sublist stored
    ∧ (∀ l ∈ stored, (l ∈ deleteLog logId stored ↔ l.id ≠ logId))
    ∧ ((stored.map (fun l => l.id)).Nodup →
        ∀ l ∈ stored, l.id = logId →
          (deleteLog logId stored).length + 1 = stored.length) := by
  refine ⟨?_, ?_, ?_, ?_⟩
  · intro h
    show stored.filter (fun l => l.id ≠ logId) = stored
    rw [List.filter_eq_self]
    intro a ha
    simpa using h a ha
  · exact List.filter_sublist stored
  · intro l hl
    show l ∈ stored.filter (fun x => x.id ≠ logId) ↔ l.id ≠ logId
    rw [List.mem_filter]
    simp only [decide_eq_true_eq]
    exact ⟨fun h => h.2, fun h => ⟨hl, h⟩⟩
  · intro hnd l hl hid
    exact filter_ne_length logId stored hnd l hl hid

/-- C8 witness: deleting an absent id from a concrete one-entry store leaves
it unchanged, and deleting a present id from a concrete two-entry store with
distinct ids removes exactly one entry. -/
theorem deleteLog_properties_wit :
    deleteLog "absent-id" [wLog 1] = [wLog 1]
    ∧ (deleteLog (wLog 1).id [wLog 1, wLog 2]).length + 1 = 2 := by
  constructor
  · exact (deleteLog_properties [wLog 1] "absent-id").1 (by decide)
  · have h := (deleteLog_properties [wLog 1, wLog 2] (wLog 1).id).2.2.2
      (by decide) (wLog 1) (by decide) rfl
    simpa using h

/-! Helper lemmas for the statistics claim -/

lemma sumValues_recIncr (m : List (String × Nat)) (k : String) :
    sumValues (recIncr m k) = sumValues m + 1 := by
  induction m with
  | nil => simp [recIncr, sumValues]
  | cons p rest ih =>
      obtain ⟨k0, v⟩ := p
      by_cases h : k0 = k
      · simp only [recIncr, if_pos h, sumValues, List.map_cons, List.sum_cons]
        omega
      · simp only [recIncr, if_neg h, sumValues, List.map_cons, List.sum_cons]
        simp only [sumValues] at ih
        omega

lemma statsFold_snd_sum (logs : List EmergencyLog) :
    ∀ t s : List (String × Nat),
      sumValues ((logs.foldl
          (fun acc log => (recIncr acc.1 log.type, recIncr acc.2 log.status)) (t, s)).2)
        = sumValues s + logs.length := by
  induction logs with
  | nil => intro t s; simp
  | cons log rest ih =>
      intro t s
      rw [List.foldl_cons]
      rw [ih (recIncr t log.type) (recIncr s log.status), sumValues_recIncr]
      simp only [List.length_cons]
      omega

/-- C9: getStatistics is a pure function of the current store contents; its
total equals the length of readLogs (or of readUserLogs when an originator is
given), the counts in byStatus sum to exactly that total, and this holds in
particular for every store reachable by any sequence of append, delete and
clear operations. -/
theorem getStatistics_properties (stored : List EmergencyLog) :
    (getStatistics none stored).total = (readLogs stored).length
    ∧ (∀ u, (getStatistics (some u) stored).total = (readUserLogs u stored).length)
    ∧ sumValues (getStatistics none stored).byStatus = (getStatistics none stored).total
    ∧ (∀ u, sumValues (getStatistics (some u) stored).byStatus
        = (getStatistics (some u) stored).total)
    ∧ (∀ ops : List StoreOp,
        sumValues (getStatistics none (runOps ops)).byStatus = (runOps ops).length) := by
  refine ⟨rfl, fun u => rfl, ?_, ?_, ?_⟩
  · simpa [getStatistics, statsFold, sumValues, readLogs]
      using statsFold_snd_sum (readLogs stored) [] []
  · intro u
    simpa [getStatistics, statsFold, sumValues, readLogs]
      using statsFold_snd_sum (readUserLogs u stored) [] []
  · intro ops
    simpa [getStatistics, statsFold, sumValues, readLogs]
      using statsFold_snd_sum (readLogs (runOps ops)) [] []

/-- C10: for every environment, alert and contact list, the last entry of the
results produced by notifyAll is the Push entry, with success true and the
message reporting exactly the two hardcoded device tokens; the caller of
notifyAll cannot supply device tokens (the tokens are a literal inside
notifyAll), so this entry is independent of the contacts and of every other
channel result. -/
theorem notifyAll_push_hardcoded (env : Env) (a : AlertRec) (cs : List Contact) :
    ((notifyAll env a cs).1.2).getLast?
      = some { type := "Push", success := true,
               message := "Push notifications sent to 2 devices" } := by
  simp only [notifyAll]
  rw [List.getLast?_concat]
  simp only [tagResult, PushNotificationAlert.sendAlert, PushNotificationAlert.sendTry]
  rfl

end EmergencyApp
